import Mathlib

/-!
Verification of the mongo-backup export pipeline (lib/mongo-dumper.js).

The development shallowly embeds the parts of the `MongoDumper` class that the
checked properties are about:

* the range planner (`generateMonthlyRanges`, `generateAdaptiveRanges`),
* the checkpoint store (`loadState`, `saveState`),
* the streaming exporter (`dumpMonth`),
* the export orchestrator (the month loop of `run`), and
* the artifact cleaner (`findBackupFiles`, `validateBackupFile`,
  `cleanBackedUpData`).

JavaScript `Date` values appear at two granularities.  `generateMonthlyRanges`
only ever reads the year and month of its two arguments and only ever builds
first-of-month dates, so it is embedded over absolute month indices
(`year * 12 + month`, month 0-based).  `generateAdaptiveRanges` only uses
`getTime()` and `new Date(ms)`, so it is embedded over integer millisecond
timestamps.  File contents are modelled as strings, directory listings as lists
of (name, size) entries, and the I/O failures a claim quantifies over (cursor
errors, sink errors, interrupted writes, failing unlinks) as explicit inputs.
-/

namespace MongoBackup

/-! ### Range planner: monthly ranges (mongo-dumper.js lines 243-262) -/

/-- One element of the list built by `generateMonthlyRanges`:
`{start: monthStart, end: monthEnd, key: "YYYY-MM"}`.  `start` and `stop`
are absolute month indices (`stop` plays the role of the source's exclusive
`end`, which is a reserved word in Lean). -/
structure MonthRange where
  start : Nat
  stop : Nat
  key : String
deriving DecidableEq, Repr

/-- Embedding of `String(monthStart.getMonth() + 1).padStart(2, '0')`:
pad a numeral to (at least) two characters with a leading zero. -/
def pad2 (n : Nat) : String :=
  if n < 10 then "0" ++ toString n else toString n

/-- Key `"${monthStart.getFullYear()}-${String(monthStart.getMonth() + 1).padStart(2, '0')}"`
of the month with absolute index `m` (year `m / 12`, 0-based month `m % 12`). -/
def monthKey (m : Nat) : String :=
  toString (m / 12) ++ "-" ++ pad2 (m % 12 + 1)

/-- The range pushed for one month of the `while` loop of
`generateMonthlyRanges`: `[monthStart, monthEnd)` with the `"YYYY-MM"` key. -/
def mkMonthRange (m : Nat) : MonthRange :=
  ⟨m, m + 1, monthKey m⟩

/-- The `while (current < end)` loop of `generateMonthlyRanges`, with the
iteration count made explicit: the loop advances `current` by one month per
iteration (`current.setMonth(current.getMonth() + 1)`) and therefore runs
exactly `stop - current` times. -/
def generateMonthlyRangesGo : Nat → Nat → List MonthRange
  | 0, _ => []
  | fuel + 1, current => mkMonthRange current :: generateMonthlyRangesGo fuel (current + 1)

/-- A JavaScript `Date` at the granularity `generateMonthlyRanges` observes:
its absolute month index plus its position within that month.  The ordering is
lexicographic, matching timestamp order. -/
structure JSDate where
  monthIdx : Nat
  msInMonth : Nat
deriving DecidableEq, Repr

/-- Timestamp order on the `JSDate` abstraction. -/
def JSDate.le (a b : JSDate) : Prop :=
  a.monthIdx < b.monthIdx ∨ (a.monthIdx = b.monthIdx ∧ a.msInMonth ≤ b.msInMonth)

instance (a b : JSDate) : Decidable (JSDate.le a b) := by
  unfold JSDate.le
  infer_instance

/-- Embedding of `generateMonthlyRanges(minDate, maxDate)`:
`current = new Date(minDate.getFullYear(), minDate.getMonth(), 1)` is the month
containing `minDate`, and `end = new Date(maxDate.getFullYear(),
maxDate.getMonth() + 1, 1)` is the month after the month containing `maxDate`. -/
def generateMonthlyRanges (minDate maxDate : JSDate) : List MonthRange :=
  generateMonthlyRangesGo (maxDate.monthIdx + 1 - minDate.monthIdx) minDate.monthIdx

/-! ### Range planner: adaptive sub-ranges (mongo-dumper.js lines 264-296) -/

/-- A time range at millisecond granularity: `{start, end, key}` with `start`
and `stop` the `getTime()` values of the source's `Date` fields (`stop` is the
source's exclusive `end`). -/
structure TimeRange where
  start : Int
  stop : Int
  key : String
deriving DecidableEq, Repr

/-- Embedding of `const numRanges = Math.ceil(totalDocs / maxDocsPerRange)`. -/
def numRanges (totalDocs maxDocsPerRange : Nat) : Nat :=
  (totalDocs + maxDocsPerRange - 1) / maxDocsPerRange

/-- Embedding of `const subRangeDuration = Math.floor(monthDuration / numRanges)`;
integer division on `Int` here is floor division, matching `Math.floor`. -/
def subRangeDuration (monthRange : TimeRange) (n : Nat) : Int :=
  (monthRange.stop - monthRange.start) / (n : Int)

/-- Embedding of `generateAdaptiveRanges(monthRange, maxDocsPerRange)`
(mongo-dumper.js lines 264-296).  The document count obtained by the awaited
`getMonthlyDocumentCount(start, end)` query is passed in as `totalDocs`.
If the month is small enough the singleton `[monthRange]` is returned;
otherwise the loop `for (let i = 0; i < numRanges; i++)` pushes
`[start + i*d, start + (i+1)*d)` (the last sub-range ending at the parent's
`end` instead), keyed `"${monthRange.key}-part${i + 1}"`. -/
def generateAdaptiveRanges (totalDocs maxDocsPerRange : Nat) (monthRange : TimeRange) :
    List TimeRange :=
  if totalDocs ≤ maxDocsPerRange then [monthRange]
  else
    let n := numRanges totalDocs maxDocsPerRange
    let d := subRangeDuration monthRange n
    (List.range n).map fun (i : Nat) =>
      ⟨monthRange.start + (i : Int) * d,
       if i = n - 1 then monthRange.stop else monthRange.start + ((i : Int) + 1) * d,
       monthRange.key ++ "-part" ++ toString (i + 1)⟩

/-! ### Checkpoint store (mongo-dumper.js lines 123-134) -/

/-- The checkpoint state object `{ completedMonths: [...], lastProcessed: ... }`
threaded through `run()` and persisted in `.dump-state.json`. -/
structure DumpState where
  completedMonths : List String
  lastProcessed : Option String
deriving DecidableEq, Repr

/-- A parsed view of the persisted checkpoint file: `none` when the file is
absent or unreadable or unparseable, `some s` when it holds state `s`. -/
def loadStateFile : Option DumpState → DumpState
  | none => ⟨[], none⟩
  | some s => s

/-- Outcome of `fs.readFile(this.stateFile, 'utf8')`: the file may be absent
(ENOENT), unreadable (e.g. EACCES) — both make `readFile` throw — or present
with some contents. -/
inductive FileReadResult where
  | absent
  | unreadable
  | content (contents : String)
deriving DecidableEq

/-- Embedding of `loadState()` (mongo-dumper.js lines 123-130): read the state
file and `JSON.parse` it; any thrown error is caught and the fresh state
`{ completedMonths: [], lastProcessed: null }` returned.  `JSON.parse`
(a platform builtin) is abstracted as a partial parse function returning
`none` exactly when parsing throws. -/
def loadState (parseState : String → Option DumpState) : FileReadResult → DumpState
  | .absent => ⟨[], none⟩
  | .unreadable => ⟨[], none⟩
  | .content contents =>
    match parseState contents with
    | none => ⟨[], none⟩
    | some state => state

/-- JSON string escaping of one character, as performed by `JSON.stringify`
on the month-key and timestamp strings stored in the state file (other
control characters do not occur in those strings). -/
def jsonEscapeChar (c : Char) : List Char :=
  if c = '"' then ['\\', '"']
  else if c = '\\' then ['\\', '\\']
  else if c = '\n' then ['\\', 'n']
  else if c = '\r' then ['\\', 'r']
  else if c = '\t' then ['\\', 't']
  else [c]

/-- A JSON string literal: the escaped characters wrapped in quotes. -/
def jsonString (s : String) : String :=
  String.mk ('"' :: (s.data.map jsonEscapeChar).flatten ++ ['"'])

/-- Embedding of `JSON.stringify(state, null, 2)` for the checkpoint state
object: two-space indented, `completedMonths` first, an empty array printed
as `[]`. -/
def stringifyState (state : DumpState) : String :=
  "\x7b\n  \"completedMonths\": " ++
    (if state.completedMonths.isEmpty then "[]"
     else "[\n    " ++ String.intercalate ",\n    " (state.completedMonths.map jsonString) ++
       "\n  ]") ++
  ",\n  \"lastProcessed\": " ++
    (match state.lastProcessed with
     | none => "null"
     | some s => jsonString s) ++
  "\n\x7d"

/-- Operational model of `fs.writeFile(path, data)`: the file is opened with
the `'w'` flag (truncating it) and `data` is then written in order, so an
uninterrupted call leaves `data` and a call interrupted after `k` characters
leaves the prefix `data.take k`.  `oldContents` is the file's previous
contents, which a plain `writeFile` never preserves once it has started. -/
def writeFileInterruptible (oldContents : Option String) (data : String)
    (interruptAfter : Option Nat) : Option String :=
  match interruptAfter with
  | none => some data
  | some k => some (String.mk (data.data.take k))

/-- Embedding of `saveState(state)` (mongo-dumper.js lines 132-134):
`await fs.writeFile(this.stateFile, JSON.stringify(state, null, 2))`.
The result is the state file's contents after the call. -/
def saveState (state : DumpState) (oldContents : Option String)
    (interruptAfter : Option Nat) : Option String :=
  writeFileInterruptible oldContents (stringifyState state) interruptAfter

/-! ### Streaming exporter: dumpMonth (mongo-dumper.js lines 307-496) -/

/-- A document as the serialization step observes it: `json` is the result of
`JSON.stringify(doc)` (`none` when stringify throws, e.g. on a cyclic
structure), and `safe` is the output of the `safeStringify(doc)` fallback,
which never throws. -/
structure MDoc where
  json : Option String
  safe : String
deriving DecidableEq, Repr

/-- The serialization of one document inside the cursor loop: `JSON.stringify`
when it succeeds, otherwise the `safeStringify` fallback. -/
def serializeDoc (d : MDoc) : String :=
  match d.json with
  | some s => s
  | none => d.safe

/-- The chunk written for one document: `docJson + '\n'`. -/
def serializeLine (d : MDoc) : String :=
  serializeDoc d ++ "\n"

/-- The cursor of one unit: the documents it yields, in its
`sort({dateField: 1})` order, and an optional index at which `cursor.next()`
throws instead of yielding (`some i` with `i = docs.length` models a throw on
the final call that would have returned `null`). -/
structure CursorInput where
  docs : List MDoc
  failAt : Option Nat
deriving DecidableEq, Repr

/-- The sink of one unit: an optional write index at which the
`writeToStreamSafely` call fails, and whether the final `writeStream.end`
flush-and-close fails. -/
structure SinkInput where
  writeFailAt : Option Nat
  endFails : Bool
deriving DecidableEq, Repr

/-- The value `{ key, documents }` returned by a successful `dumpMonth`
(the `file` path component is modelled by the artifact below). -/
structure UnitResult where
  key : String
  documents : Nat
deriving DecidableEq, Repr

instance : DecidableEq (Except Unit UnitResult) := fun a b =>
  match a, b with
  | .error x, .error y =>
    if h : x = y then isTrue (by rw [h]) else isFalse (fun hc => h (by injection hc))
  | .ok x, .ok y =>
    if h : x = y then isTrue (by rw [h]) else isFalse (fun hc => h (by injection hc))
  | .error _, .ok _ => isFalse (fun hc => Except.noConfusion hc)
  | .ok _, .error _ => isFalse (fun hc => Except.noConfusion hc)

/-- Observable outcome of one `dumpMonth` call: the returned value or the
propagated error, the artifact file's contents on disk afterwards (`none`
when the file was deleted), and whether the cursor was closed. -/
structure DumpOutcome where
  result : Except Unit UnitResult
  artifact : Option (List String)
  cursorClosed : Bool
deriving DecidableEq, Repr

/-- The `while ((doc = await cursor.next()) !== null)` loop of `dumpMonth`:
at iteration `i` the cursor may throw (`failAt = some i`), otherwise a
document is pulled, serialized (with the safe fallback on stringify errors)
and written, where the write may fail (`writeFailAt = some i`).  On error the
chunks written so far are returned with the error; on success the full chunk
list and the `processedDocs` counter are returned. -/
def dumpLoop (failAt writeFailAt : Option Nat) :
    List MDoc → Nat → List String → Nat → Except (List String) (List String × Nat)
  | docs, i, written, processed =>
    if failAt = some i then .error written
    else
      match docs with
      | [] => .ok (written, processed)
      | d :: rest =>
        if writeFailAt = some i then .error written
        else dumpLoop failAt writeFailAt rest (i + 1) (written ++ [serializeLine d]) (processed + 1)

/-- Embedding of `dumpMonth(monthRange, progressCallback)` (mongo-dumper.js
lines 307-483).  The progress callbacks, memory sampling, forced GC and
micro-pauses do not affect the artifact, the counter or the control flow and
are omitted.  The `try` block is `dumpLoop` followed by the closing
`writeStream.end` promise; the `catch` block destroys the stream, unlinks the
partial artifact and rethrows; the `finally` block closes the cursor. -/
def dumpMonth (key : String) (cur : CursorInput) (sink : SinkInput) : DumpOutcome :=
  match dumpLoop cur.failAt sink.writeFailAt cur.docs 0 [] 0 with
  | .error _ => ⟨.error (), none, true⟩
  | .ok (written, processed) =>
    if sink.endFails then ⟨.error (), none, true⟩
    else ⟨.ok ⟨key, processed⟩, some written, true⟩

/-- The cursor throws at some point of the unit's iteration. -/
def cursorFails (cur : CursorInput) : Bool :=
  match cur.failAt with
  | some i => decide (i ≤ cur.docs.length)
  | none => false

/-- A write of one of the unit's documents fails. -/
def sinkWriteFails (cur : CursorInput) (sink : SinkInput) : Bool :=
  match sink.writeFailAt with
  | some j => decide (j < cur.docs.length)
  | none => false

/-- Some unrecoverable error occurs during the unit: a cursor failure, a sink
write failure, or a failure of the closing flush. -/
def hasFailure (cur : CursorInput) (sink : SinkInput) : Bool :=
  cursorFails cur || sinkWriteFails cur sink || sink.endFails

/-! ### Export orchestrator: the month loop of run (mongo-dumper.js lines 795-911) -/

/-- Observable events of one run of the orchestrator loop: a unit export
(one `dumpMonth` call, identified by its range key) and a checkpoint
persistence (one `saveState` call, carrying the `completedMonths` list it
persists). -/
inductive Event where
  | dump (unitKey : String)
  | save (completedMonths : List String)
deriving DecidableEq, Repr

/-- Embedding of the month loop of `run()` (mongo-dumper.js lines 848-894):
for each pending month, `generateAdaptiveRanges` is called (its count query
modelled by `countOf`), every resulting sub-range is exported by `dumpMonth`
(here assumed to succeed, emitting a `dump` event), and only then is the
month's key pushed onto `state.completedMonths` and the state saved (emitting
a `save` event).  Returns the event trace and the final `completedMonths`. -/
def runLoop (countOf : TimeRange → Nat) (maxDocsPerRange : Nat) :
    List String → List TimeRange → List Event × List String
  | completedMonths, [] => ([], completedMonths)
  | completedMonths, monthRange :: rest =>
    let adaptiveRanges := generateAdaptiveRanges (countOf monthRange) maxDocsPerRange monthRange
    let next := runLoop countOf maxDocsPerRange (completedMonths ++ [monthRange.key]) rest
    (adaptiveRanges.map (fun range => Event.dump range.key) ++
       Event.save (completedMonths ++ [monthRange.key]) :: next.1,
     next.2)

/-- Scanning forward from just after a unit export: does a checkpoint save
whose `completedMonths` contains `unitKey` occur before the next unit export
begins?  This is the claim-side reading of "persisted before the next unit is
processed". -/
def savedBeforeNextDump (unitKey : String) : List Event → Bool
  | [] => false
  | Event.dump _ :: _ => false
  | Event.save completed :: rest => completed.contains unitKey || savedBeforeNextDump unitKey rest

/-- Claim-side checkpoint granularity property of a trace: after every unit
export, that unit's key is persisted in a checkpoint save before the next
unit export is processed. -/
def checkpointAfterEachUnit : List Event → Bool
  | [] => true
  | Event.dump unitKey :: rest => savedBeforeNextDump unitKey rest && checkpointAfterEachUnit rest
  | Event.save _ :: rest => checkpointAfterEachUnit rest

/-- Number of unit exports in a trace. -/
def numDumps (trace : List Event) : Nat :=
  (trace.filter fun e => match e with | .dump _ => true | .save _ => false).length

/-- The events one pending month actually contributes to the trace: the
exports of its adaptive sub-ranges followed by a single checkpoint save whose
`completedMonths` is the months completed before it plus this month's key. -/
def monthBlock (countOf : TimeRange → Nat) (maxDocsPerRange : Nat)
    (completedBefore : List String) (monthRange : TimeRange) : List Event :=
  (generateAdaptiveRanges (countOf monthRange) maxDocsPerRange monthRange).map
      (fun range => Event.dump range.key) ++
    [Event.save (completedBefore ++ [monthRange.key])]

/-- Observable outcome of one whole `run()`: its trace of unit exports and
checkpoint saves, and the persisted state file afterwards (`none` when the
file is absent, in particular after the clean-completion unlink). -/
structure RunResult where
  trace : List Event
  stateFileAfter : Option DumpState
deriving DecidableEq, Repr

/-- Embedding of `run()` around the month loop (mongo-dumper.js lines
821-906): load the persisted state, filter out months whose key is already in
`state.completedMonths`, return early when nothing is pending, otherwise
process every pending month and — when the final `completedMonths` covers
every monthly range — unlink the state file ("Clean completion").
Connection handling, index extraction and progress reporting do not affect
these observables and are omitted. -/
def runOnce (countOf : TimeRange → Nat) (maxDocsPerRange : Nat) (now : String)
    (monthlyRanges : List TimeRange) (stateFile : Option DumpState) : RunResult :=
  let state := loadStateFile stateFile
  let pendingRanges := monthlyRanges.filter fun range =>
    !(state.completedMonths.contains range.key)
  if pendingRanges.isEmpty then ⟨[], stateFile⟩
  else
    let looped := runLoop countOf maxDocsPerRange state.completedMonths pendingRanges
    if looped.2.length = monthlyRanges.length then ⟨looped.1, none⟩
    else ⟨looped.1, some ⟨looped.2, some now⟩⟩

/-! ### Artifact cleaner (mongo-dumper.js lines 498-691) -/

/-- One entry of the output directory: a file name and its size in bytes. -/
structure FileEntry where
  name : String
  size : Nat
deriving DecidableEq, Repr

/-- One discovered backup artifact, as collected by `findBackupFiles`
(the `modified` time is not used by any checked property). -/
structure BackupFileInfo where
  monthKey : String
  filename : String
  size : Nat
deriving DecidableEq, Repr

/-- Match a literal leading character sequence, returning the remainder. -/
def stripLeading : List Char → List Char → Option (List Char)
  | [], s => some s
  | _ :: _, [] => none
  | p :: ps, c :: cs => if p = c then stripLeading ps cs else none

/-- The tail of the `findBackupFiles` file-name pattern after the captured
month key: `\.(jsonl|bson)(\.gz)?$`. -/
def extOk (rest : List Char) : Bool :=
  rest == ".jsonl".data || rest == ".bson".data ||
    rest == ".jsonl.gz".data || rest == ".bson.gz".data

/-- Embedding of the regular expression
`^${database}_${collection}_(\d{4}-\d{2})\.(jsonl|bson)(\.gz)?$` used by
`findBackupFiles` (mongo-dumper.js line 519), returning the captured month
key on a match.  The interpolated database and collection names are treated
as literal text (they contain no regex metacharacters in practice). -/
def matchBackupName (database collection : String) (name : String) : Option String :=
  match stripLeading (database ++ "_" ++ collection ++ "_").data name.data with
  | none => none
  | some rest =>
    match rest with
    | y1 :: y2 :: y3 :: y4 :: '-' :: m1 :: m2 :: rest2 =>
      if y1.isDigit && y2.isDigit && y3.isDigit && y4.isDigit &&
          m1.isDigit && m2.isDigit && extOk rest2 then
        some (String.mk [y1, y2, y3, y4, '-', m1, m2])
      else none
    | _ => none

/-- Ordered insertion for the month-key sort of `findBackupFiles`. -/
def insertByMonthKey (b : BackupFileInfo) : List BackupFileInfo → List BackupFileInfo
  | [] => [b]
  | c :: cs => if b.monthKey ≤ c.monthKey then b :: c :: cs else c :: insertByMonthKey b cs

/-- The `files.sort((a, b) => a.monthKey.localeCompare(b.monthKey))` step:
a sort by month key (on these ASCII keys `localeCompare` is lexicographic
order; the properties checked here depend only on the result being a
reordering). -/
def sortByMonthKey : List BackupFileInfo → List BackupFileInfo
  | [] => []
  | b :: bs => insertByMonthKey b (sortByMonthKey bs)

/-- Embedding of `findBackupFiles()` (mongo-dumper.js lines 515-542): scan the
output directory, keep the files matching the naming pattern together with
their captured month key and size, and sort by month key. -/
def findBackupFiles (database collection : String) (dir : List FileEntry) :
    List BackupFileInfo :=
  sortByMonthKey (dir.filterMap fun f =>
    match matchBackupName database collection f.name with
    | some key => some ⟨key, f.name, f.size⟩
    | none => none)

/-- The dumper options `findBackupFiles`, `validateBackupFile` and `dumpMonth`
read when building artifact paths. -/
structure DumperConfig where
  database : String
  collection : String
  format : String
  compress : Bool
deriving DecidableEq, Repr

/-- The artifact path `validateBackupFile` checks:
`${database}_${collection}_${monthKey}` plus the extension chosen by the
current `format` and `compress` options (mongo-dumper.js lines 499-502). -/
def backupFilename (cfg : DumperConfig) (monthKey : String) : String :=
  cfg.database ++ "_" ++ cfg.collection ++ "_" ++ monthKey ++
    (if cfg.format == "bson" then ".bson" else ".jsonl") ++
    (if cfg.compress then ".gz" else "")

/-- Embedding of `validateBackupFile(monthKey)` (mongo-dumper.js lines
498-513): `fs.stat` the expected path; valid exactly when the file exists
with nonzero size. -/
def validateBackupFile (cfg : DumperConfig) (dir : List FileEntry) (monthKey : String) : Bool :=
  match dir.find? fun f => f.name == backupFilename cfg monthKey with
  | some f => decide (0 < f.size)
  | none => false

/-- Observable outcome of `cleanBackedUpData`: the artifacts actually
unlinked, the file names whose deletion failed, and the persisted state file
afterwards. -/
structure CleanResult where
  deleted : List BackupFileInfo
  errors : List String
  stateFileAfter : Option DumpState
deriving Repr

/-- Embedding of `cleanBackedUpData(options)` (mongo-dumper.js lines
544-691).  Mirrors the source's phases and early returns: discover backup
files; restrict to the requested `months` when a nonempty list is given;
restrict to month keys present in `state.completedMonths`; validate each
candidate; report and stop on a dry run or a declined confirmation; unlink
the valid candidates (each unlink may fail, via `unlinkFails`); erase the
deleted keys from the state and persist it, unlinking the state file when no
completed month remains. -/
def cleanBackedUpData (cfg : DumperConfig) (dir : List FileEntry)
    (stateFile : Option DumpState) (months : Option (List String))
    (confirmDelete dryRun confirmAnswer : Bool) (unlinkFails : String → Bool) :
    CleanResult :=
  let state := loadStateFile stateFile
  let backupFiles := findBackupFiles cfg.database cfg.collection dir
  if backupFiles.isEmpty then ⟨[], [], stateFile⟩
  else
    let requested :=
      match months with
      | some ms => if ms.isEmpty then backupFiles
                   else backupFiles.filter fun f => ms.contains f.monthKey
      | none => backupFiles
    let filesToDelete := requested.filter fun f =>
      state.completedMonths.contains f.monthKey
    if filesToDelete.isEmpty then ⟨[], [], stateFile⟩
    else
      let validFiles := filesToDelete.filter fun f => validateBackupFile cfg dir f.monthKey
      let invalidFiles := filesToDelete.filter fun f => !validateBackupFile cfg dir f.monthKey
      if validFiles.isEmpty then ⟨[], invalidFiles.map (fun f => f.filename), stateFile⟩
      else if dryRun then ⟨[], [], stateFile⟩
      else if confirmDelete && !confirmAnswer then ⟨[], [], stateFile⟩
      else
        let deleted := validFiles.filter fun f => !unlinkFails f.filename
        let errors := (validFiles.filter fun f => unlinkFails f.filename).map fun f => f.filename
        let remaining := deleted.foldl (fun acc f => acc.erase f.monthKey) state.completedMonths
        let stateAfter :=
          if deleted.isEmpty then stateFile
          else if remaining.isEmpty then none
          else some ⟨remaining, state.lastProcessed⟩
        ⟨deleted, errors, stateAfter⟩

/-! ### Specification-side artifact naming convention (spec section 6) -/

/-- Modelled from the spec: a unit key of the form `YYYY-MM`
(four digits, a dash, two digits). -/
def SpecMonthKey (key : String) : Prop :=
  ∃ c1 c2 c3 c4 c5 c6 : Char,
    c1.isDigit = true ∧ c2.isDigit = true ∧ c3.isDigit = true ∧ c4.isDigit = true ∧
    c5.isDigit = true ∧ c6.isDigit = true ∧
    key = String.mk [c1, c2, c3, c4, '-', c5, c6]

/-- Modelled from the spec: a unit key of the form `YYYY-MM-partN`
(a monthly key followed by `-part` and at least one digit). -/
def SpecPartKey (key : String) : Prop :=
  ∃ (mk : String) (ds : List Char),
    SpecMonthKey mk ∧ ds ≠ [] ∧ (∀ c ∈ ds, c.isDigit = true) ∧
    key = mk ++ "-part" ++ String.mk ds

/-- The artifact extensions of the naming convention: `.{ext}[.gz]` with
`ext` either `jsonl` or `bson`. -/
def specExtensions : List String :=
  [".jsonl", ".bson", ".jsonl.gz", ".bson.gz"]

/-- Modelled from the spec: an artifact file name following the convention
`{source}_{collection}_{unitKey}.{ext}[.gz]` with `unitKey` matching
`YYYY-MM` or `YYYY-MM-partN`. -/
def SpecArtifactName (database collection name : String) : Prop :=
  ∃ key ext, (SpecMonthKey key ∨ SpecPartKey key) ∧ ext ∈ specExtensions ∧
    name = database ++ "_" ++ collection ++ "_" ++ key ++ ext

/-! ### Lemmas about the range planner -/

theorem generateMonthlyRangesGo_eq (n c : Nat) :
    generateMonthlyRangesGo n c = (List.range n).map fun i => mkMonthRange (c + i) := by
  induction n generalizing c with
  | zero => rfl
  | succ n ih =>
    rw [List.range_succ_eq_map, List.map_cons, List.map_map]
    show mkMonthRange c :: generateMonthlyRangesGo n (c + 1) = _
    rw [ih]
    refine congrArg₂ List.cons (by rw [Nat.add_zero]) (List.map_congr_left ?_)
    intro i _
    show mkMonthRange (c + 1 + i) = mkMonthRange (c + (i + 1))
    exact congrArg mkMonthRange (by omega)

theorem generateMonthlyRanges_length (minDate maxDate : JSDate) :
    (generateMonthlyRanges minDate maxDate).length = maxDate.monthIdx + 1 - minDate.monthIdx := by
  rw [generateMonthlyRanges, generateMonthlyRangesGo_eq, List.length_map, List.length_range]

theorem generateMonthlyRanges_get (minDate maxDate : JSDate) (i : Nat)
    (hi : i < (generateMonthlyRanges minDate maxDate).length) :
    (generateMonthlyRanges minDate maxDate).get ⟨i, hi⟩ =
      mkMonthRange (minDate.monthIdx + i) := by
  have h := generateMonthlyRangesGo_eq (maxDate.monthIdx + 1 - minDate.monthIdx) minDate.monthIdx
  rw [List.get_eq_getElem]
  conv in generateMonthlyRanges minDate maxDate => rw [generateMonthlyRanges, h]
  rw [List.getElem_map, List.getElem_range]

/-- C2: for any `minDate ≤ maxDate`, `generateMonthlyRanges` returns one range
per calendar month from the month containing `minDate` through the month
containing `maxDate` inclusive, each spanning `[m, m+1)` with key
`monthKey m` (the `"YYYY-MM"` format); consecutive ranges are contiguous,
distinct ranges never overlap, and the concatenation exactly covers
`[month(minDate), month(maxDate) + 1)` with no gaps. -/
theorem monthly_ranges_partition (minDate maxDate : JSDate) (h : JSDate.le minDate maxDate) :
    (generateMonthlyRanges minDate maxDate).length =
        maxDate.monthIdx + 1 - minDate.monthIdx ∧
    (∀ i (hi : i < (generateMonthlyRanges minDate maxDate).length),
      ((generateMonthlyRanges minDate maxDate).get ⟨i, hi⟩).start = minDate.monthIdx + i ∧
      ((generateMonthlyRanges minDate maxDate).get ⟨i, hi⟩).stop = minDate.monthIdx + i + 1 ∧
      ((generateMonthlyRanges minDate maxDate).get ⟨i, hi⟩).key =
        monthKey (minDate.monthIdx + i)) ∧
    (∀ i (hi : i + 1 < (generateMonthlyRanges minDate maxDate).length),
      ((generateMonthlyRanges minDate maxDate).get ⟨i, Nat.lt_of_succ_lt hi⟩).stop =
        ((generateMonthlyRanges minDate maxDate).get ⟨i + 1, hi⟩).start) ∧
    (∀ i j (hi : i < (generateMonthlyRanges minDate maxDate).length)
        (hj : j < (generateMonthlyRanges minDate maxDate).length), i < j →
      ((generateMonthlyRanges minDate maxDate).get ⟨i, hi⟩).stop ≤
        ((generateMonthlyRanges minDate maxDate).get ⟨j, hj⟩).start) ∧
    (∀ m : Nat,
      (∃ i, ∃ hi : i < (generateMonthlyRanges minDate maxDate).length,
          ((generateMonthlyRanges minDate maxDate).get ⟨i, hi⟩).start ≤ m ∧
          m < ((generateMonthlyRanges minDate maxDate).get ⟨i, hi⟩).stop) ↔
        (minDate.monthIdx ≤ m ∧ m < maxDate.monthIdx + 1)) := by
  have hm : minDate.monthIdx ≤ maxDate.monthIdx := by
    rcases h with h | ⟨h, _⟩ <;> omega
  refine ⟨generateMonthlyRanges_length minDate maxDate, ?_, ?_, ?_, ?_⟩
  · intro i hi
    rw [generateMonthlyRanges_get minDate maxDate i hi]
    exact ⟨rfl, rfl, rfl⟩
  · intro i hi
    rw [generateMonthlyRanges_get minDate maxDate i (Nat.lt_of_succ_lt hi),
      generateMonthlyRanges_get minDate maxDate (i + 1) hi]
    show minDate.monthIdx + i + 1 = minDate.monthIdx + (i + 1)
    omega
  · intro i j hi hj hij
    rw [generateMonthlyRanges_get minDate maxDate i hi,
      generateMonthlyRanges_get minDate maxDate j hj]
    show minDate.monthIdx + i + 1 ≤ minDate.monthIdx + j
    omega
  · intro m
    constructor
    · rintro ⟨i, hi, h1, h2⟩
      rw [generateMonthlyRanges_get minDate maxDate i hi] at h1 h2
      have hlen := generateMonthlyRanges_length minDate maxDate
      simp only [mkMonthRange] at h1 h2
      omega
    · rintro ⟨h1, h2⟩
      have hlen := generateMonthlyRanges_length minDate maxDate
      refine ⟨m - minDate.monthIdx, by omega, ?_⟩
      rw [generateMonthlyRanges_get minDate maxDate (m - minDate.monthIdx) (by omega)]
      simp only [mkMonthRange]
      omega

/-- Witness for C2 at scenario 1 of the spec: `minDate` in January 2023
(month index 24276), `maxDate` in March 2023 (month index 24278) yield the
three ranges keyed `2023-01`, `2023-02`, `2023-03`. -/
theorem monthly_ranges_partition_witness :
    JSDate.le ⟨24276, 1209600000⟩ ⟨24278, 777600000⟩ ∧
    (generateMonthlyRanges ⟨24276, 1209600000⟩ ⟨24278, 777600000⟩).length = 3 ∧
    (generateMonthlyRanges ⟨24276, 1209600000⟩ ⟨24278, 777600000⟩).map MonthRange.key =
      ["2023-01", "2023-02", "2023-03"] := by
  refine ⟨by decide, ?_, by decide⟩
  have h := (monthly_ranges_partition ⟨24276, 1209600000⟩ ⟨24278, 777600000⟩
    (Or.inl (by decide))).1
  rw [h]
  rfl

/-! ### Lemmas about adaptive sub-ranges -/

theorem chain_mono_le (f : Nat → Int) (n : Nat)
    (hmono : ∀ i, i < n → f i ≤ f (i + 1)) :
    ∀ i j, i ≤ j → j ≤ n → f i ≤ f j := by
  intro i j hij hjn
  obtain ⟨k, rfl⟩ : ∃ k, j = i + k := ⟨j - i, by omega⟩
  induction k with
  | zero => exact le_refl _
  | succ k ih => exact le_trans (ih (by omega) (by omega)) (hmono (i + k) (by omega))

theorem chain_mem_of_union (f : Nat → Int) (t : Int) :
    ∀ n, (∀ i, i < n → f i ≤ f (i + 1)) → f 0 ≤ t → t < f n →
      ∃ i, i < n ∧ f i ≤ t ∧ t < f (i + 1) := by
  intro n
  induction n with
  | zero => intro _ h1 h2; exact absurd (lt_of_le_of_lt h1 h2) (lt_irrefl _)
  | succ n ih =>
    intro hmono h1 h2
    by_cases ht : t < f n
    · obtain ⟨i, hi, hh1, hh2⟩ := ih (fun i h => hmono i (by omega)) h1 ht
      exact ⟨i, by omega, hh1, hh2⟩
    · exact ⟨n, by omega, not_lt.mp ht, h2⟩

theorem numRanges_two_le (totalDocs maxDocsPerRange : Nat) (hmax : 0 < maxDocsPerRange)
    (hlt : maxDocsPerRange < totalDocs) : 2 ≤ numRanges totalDocs maxDocsPerRange := by
  rw [numRanges, Nat.le_div_iff_mul_le hmax]
  omega

theorem generateAdaptiveRanges_get (totalDocs maxDocsPerRange : Nat) (r : TimeRange)
    (hlt : maxDocsPerRange < totalDocs) (i : Nat)
    (hi : i < (generateAdaptiveRanges totalDocs maxDocsPerRange r).length) :
    (generateAdaptiveRanges totalDocs maxDocsPerRange r).get ⟨i, hi⟩ =
      ⟨r.start + (i : Int) * subRangeDuration r (numRanges totalDocs maxDocsPerRange),
       if i = numRanges totalDocs maxDocsPerRange - 1 then r.stop
       else r.start + ((i : Int) + 1) * subRangeDuration r (numRanges totalDocs maxDocsPerRange),
       r.key ++ "-part" ++ toString (i + 1)⟩ := by
  rw [List.get_eq_getElem]
  conv in generateAdaptiveRanges totalDocs maxDocsPerRange r =>
    rw [generateAdaptiveRanges, if_neg (not_le_of_lt hlt)]
  rw [List.getElem_map, List.getElem_range]

theorem generateAdaptiveRanges_length (totalDocs maxDocsPerRange : Nat) (r : TimeRange)
    (hlt : maxDocsPerRange < totalDocs) :
    (generateAdaptiveRanges totalDocs maxDocsPerRange r).length =
      numRanges totalDocs maxDocsPerRange := by
  rw [generateAdaptiveRanges, if_neg (not_le_of_lt hlt), List.length_map, List.length_range]

/-- C3: `generateAdaptiveRanges` returns `[range]` unchanged when
`docCount ≤ maxDocsPerRange`; otherwise it returns `n = ceil(docCount /
maxDocsPerRange)` sub-ranges keyed `"{parentKey}-part{i}"` for `i = 1..n`
that divide the parent's duration into equal-length sub-intervals (each
non-final sub-range has length `subRangeDuration`, the final one absorbs the
rounding remainder up to the parent's `end`), and the sub-ranges are
contiguous, ordered, non-overlapping, with union exactly the parent's
`[start, end)`. -/
theorem adaptive_subranges (totalDocs maxDocsPerRange : Nat) (r : TimeRange)
    (hmax : 0 < maxDocsPerRange) (hr : r.start ≤ r.stop) :
    (totalDocs ≤ maxDocsPerRange →
      generateAdaptiveRanges totalDocs maxDocsPerRange r = [r]) ∧
    (maxDocsPerRange < totalDocs →
      (generateAdaptiveRanges totalDocs maxDocsPerRange r).length =
          numRanges totalDocs maxDocsPerRange ∧
      (∀ i (hi : i < (generateAdaptiveRanges totalDocs maxDocsPerRange r).length),
        ((generateAdaptiveRanges totalDocs maxDocsPerRange r).get ⟨i, hi⟩).key =
          r.key ++ "-part" ++ toString (i + 1)) ∧
      (∀ h0 : 0 < (generateAdaptiveRanges totalDocs maxDocsPerRange r).length,
        ((generateAdaptiveRanges totalDocs maxDocsPerRange r).get ⟨0, h0⟩).start = r.start) ∧
      (∀ hl : numRanges totalDocs maxDocsPerRange - 1 <
          (generateAdaptiveRanges totalDocs maxDocsPerRange r).length,
        ((generateAdaptiveRanges totalDocs maxDocsPerRange r).get
            ⟨numRanges totalDocs maxDocsPerRange - 1, hl⟩).stop = r.stop) ∧
      (∀ i (hi : i + 1 < (generateAdaptiveRanges totalDocs maxDocsPerRange r).length),
        ((generateAdaptiveRanges totalDocs maxDocsPerRange r).get
            ⟨i, Nat.lt_of_succ_lt hi⟩).stop =
          ((generateAdaptiveRanges totalDocs maxDocsPerRange r).get ⟨i + 1, hi⟩).start) ∧
      (∀ i (hi : i < (generateAdaptiveRanges totalDocs maxDocsPerRange r).length),
        ((generateAdaptiveRanges totalDocs maxDocsPerRange r).get ⟨i, hi⟩).start ≤
          ((generateAdaptiveRanges totalDocs maxDocsPerRange r).get ⟨i, hi⟩).stop) ∧
      (∀ i (hi : i < (generateAdaptiveRanges totalDocs maxDocsPerRange r).length),
        i < numRanges totalDocs maxDocsPerRange - 1 →
        ((generateAdaptiveRanges totalDocs maxDocsPerRange r).get ⟨i, hi⟩).stop -
            ((generateAdaptiveRanges totalDocs maxDocsPerRange r).get ⟨i, hi⟩).start =
          subRangeDuration r (numRanges totalDocs maxDocsPerRange)) ∧
      (∀ i j (hi : i < (generateAdaptiveRanges totalDocs maxDocsPerRange r).length)
          (hj : j < (generateAdaptiveRanges totalDocs maxDocsPerRange r).length), i < j →
        ((generateAdaptiveRanges totalDocs maxDocsPerRange r).get ⟨i, hi⟩).stop ≤
          ((generateAdaptiveRanges totalDocs maxDocsPerRange r).get ⟨j, hj⟩).start) ∧
      (∀ t : Int,
        (∃ i, ∃ hi : i < (generateAdaptiveRanges totalDocs maxDocsPerRange r).length,
            ((generateAdaptiveRanges totalDocs maxDocsPerRange r).get ⟨i, hi⟩).start ≤ t ∧
            t < ((generateAdaptiveRanges totalDocs maxDocsPerRange r).get ⟨i, hi⟩).stop) ↔
          (r.start ≤ t ∧ t < r.stop))) := by
  constructor
  · intro hle
    rw [generateAdaptiveRanges, if_pos hle]
  intro hlt
  have hn2 : 2 ≤ numRanges totalDocs maxDocsPerRange := numRanges_two_le _ _ hmax hlt
  set n := numRanges totalDocs maxDocsPerRange with hn
  set d := subRangeDuration r n with hd
  have hd0 : 0 ≤ d := by
    rw [hd, subRangeDuration]
    exact Int.ediv_nonneg (by omega) (by exact_mod_cast Nat.zero_le n)
  have hnd : (n : Int) * d ≤ r.stop - r.start := by
    have h := Int.ediv_mul_le (r.stop - r.start) (show (n : Int) ≠ 0 by exact_mod_cast
      (by omega : n ≠ 0))
    rw [hd, subRangeDuration, mul_comm]
    exact h
  have hlen := generateAdaptiveRanges_length totalDocs maxDocsPerRange r hlt
  -- the boundary function of the sub-range chain
  set f : Nat → Int := fun i => if i = n then r.stop else r.start + (i : Int) * d with hf
  have hf0 : f 0 = r.start := by
    rw [hf]
    simp only [if_neg (by omega : 0 ≠ n)]
    push_cast
    ring
  have hfn : f n = r.stop := by rw [hf]; simp
  have hfi : ∀ i, i < n → f i = r.start + (i : Int) * d := by
    intro i hi
    rw [hf]
    simp only [if_neg (by omega : i ≠ n)]
  have hstart : ∀ i (hi : i < (generateAdaptiveRanges totalDocs maxDocsPerRange r).length),
      ((generateAdaptiveRanges totalDocs maxDocsPerRange r).get ⟨i, hi⟩).start = f i := by
    intro i hi
    rw [generateAdaptiveRanges_get totalDocs maxDocsPerRange r hlt i hi,
      hfi i (by omega)]
  have hstop : ∀ i (hi : i < (generateAdaptiveRanges totalDocs maxDocsPerRange r).length),
      ((generateAdaptiveRanges totalDocs maxDocsPerRange r).get ⟨i, hi⟩).stop = f (i + 1) := by
    intro i hi
    rw [generateAdaptiveRanges_get totalDocs maxDocsPerRange r hlt i hi]
    by_cases hi1 : i = n - 1
    · rw [if_pos hi1, hf]
      simp only [if_pos (by omega : i + 1 = n)]
    · rw [if_neg hi1, hfi (i + 1) (by omega)]
      push_cast
      ring
  have hmono : ∀ i, i < n → f i ≤ f (i + 1) := by
    intro i hi
    by_cases hi1 : i + 1 = n
    · rw [hfi i (by omega), hf]
      simp only [if_pos hi1]
      have h1 : (i : Int) * d ≤ (n : Int) * d :=
        mul_le_mul_of_nonneg_right (by exact_mod_cast le_of_lt hi) hd0
      omega
    · rw [hfi i (by omega), hfi (i + 1) (by omega)]
      have h1 : (i : Int) * d ≤ ((i : Int) + 1) * d :=
        mul_le_mul_of_nonneg_right (by omega) hd0
      push_cast
      omega
  refine ⟨hlen, ?_, ?_, ?_, ?_, ?_, ?_, ?_, ?_⟩
  · intro i hi
    rw [generateAdaptiveRanges_get totalDocs maxDocsPerRange r hlt i hi]
  · intro h0
    rw [hstart 0 h0, hf0]
  · intro hl
    rw [hstop (n - 1) hl]
    have : n - 1 + 1 = n := by omega
    rw [this, hfn]
  · intro i hi
    rw [hstop i (Nat.lt_of_succ_lt hi), hstart (i + 1) hi]
  · intro i hi
    rw [hstart i hi, hstop i hi]
    exact hmono i (by omega)
  · intro i hi hilast
    rw [hstart i hi, hstop i hi, hfi i (by omega), hfi (i + 1) (by omega)]
    push_cast
    ring
  · intro i j hi hj hij
    rw [hstop i hi, hstart j hj, hfi j (by omega)]
    rw [← hfi j (by omega)]
    exact chain_mono_le f n hmono (i + 1) j (by omega) (by omega)
  · intro t
    constructor
    · rintro ⟨i, hi, h1, h2⟩
      rw [hstart i hi] at h1
      rw [hstop i hi] at h2
      rw [← hf0, ← hfn]
      exact ⟨le_trans (chain_mono_le f n hmono 0 i (by omega) (by omega)) h1,
        lt_of_lt_of_le h2 (chain_mono_le f n hmono (i + 1) n (by omega) (by omega))⟩
    · rintro ⟨h1, h2⟩
      obtain ⟨i, hi, hh1, hh2⟩ := chain_mem_of_union f t n hmono (hf0 ▸ h1) (hfn ▸ h2)
      refine ⟨i, by omega, ?_, ?_⟩
      · rw [hstart i (by omega)]; exact hh1
      · rw [hstop i (by omega)]; exact hh2

/-- Witness for C3 at scenario 2 of the spec: a month range holding 2,500,000
documents with a 1,000,000 cap splits into three sub-ranges keyed
`2023-06-part1/2/3`. -/
theorem adaptive_subranges_witness :
    (generateAdaptiveRanges 2500000 1000000 ⟨0, 2592000000, "2023-06"⟩).length = 3 ∧
    (generateAdaptiveRanges 2500000 1000000 ⟨0, 2592000000, "2023-06"⟩).map TimeRange.key =
      ["2023-06-part1", "2023-06-part2", "2023-06-part3"] := by
  refine ⟨?_, by decide⟩
  have h := ((adaptive_subranges 2500000 1000000 ⟨0, 2592000000, "2023-06"⟩
    (by decide) (by decide)).2 (by decide)).1
  rw [h]
  rfl

/-! ### Lemmas about the orchestrator loop -/

theorem runLoop_snd (countOf : TimeRange → Nat) (maxDocsPerRange : Nat)
    (completedMonths : List String) (pending : List TimeRange) :
    (runLoop countOf maxDocsPerRange completedMonths pending).2 =
      completedMonths ++ pending.map TimeRange.key := by
  induction pending generalizing completedMonths with
  | nil => simp [runLoop]
  | cons r rest ih =>
    show (runLoop countOf maxDocsPerRange (completedMonths ++ [r.key]) rest).2 = _
    rw [ih, List.map_cons, List.append_assoc]
    rfl

/-- C1 (amended): the trace of the orchestrator loop is exactly one block per
pending month, each block consisting of the exports of that month's adaptive
sub-ranges followed by a single checkpoint save whose `completedMonths` is
the initial completed set extended by the keys of all months up to and
including that month.  In particular the checkpoint is persisted once per
top-level month — after all of the month's sub-ranges have been exported and
before the next month's first export — and sub-range keys are never
themselves added to the checkpoint. -/
theorem run_checkpoints_month_granularity (countOf : TimeRange → Nat)
    (maxDocsPerRange : Nat) (completedMonths : List String) (pending : List TimeRange) :
    (runLoop countOf maxDocsPerRange completedMonths pending).1 =
      ((List.finRange pending.length).map fun i =>
        monthBlock countOf maxDocsPerRange
          (completedMonths ++ ((pending.take i.1).map TimeRange.key))
          (pending.get i)).flatten := by
  induction pending generalizing completedMonths with
  | nil => simp [runLoop]
  | cons r rest ih =>
    show (runLoop countOf maxDocsPerRange completedMonths (r :: rest)).1 =
      ((List.finRange (rest.length + 1)).map fun i =>
        monthBlock countOf maxDocsPerRange
          (completedMonths ++ (((r :: rest).take i.1).map TimeRange.key))
          ((r :: rest).get i)).flatten
    rw [List.finRange_succ, List.map_cons, List.flatten_cons, List.map_map]
    simp only [Fin.val_zero, List.take_zero, List.map_nil, List.append_nil,
      List.get_cons_zero, Function.comp]
    have htail : ((List.finRange rest.length).map
        ((fun (i : Fin ((r :: rest).length)) =>
          monthBlock countOf maxDocsPerRange
            (completedMonths ++ (((r :: rest).take i.1).map TimeRange.key))
            ((r :: rest).get i)) ∘ Fin.succ)) =
        ((List.finRange rest.length).map fun i =>
          monthBlock countOf maxDocsPerRange
            ((completedMonths ++ [r.key]) ++ ((rest.take i.1).map TimeRange.key))
            (rest.get i)) := by
      refine List.map_congr_left ?_
      intro i _
      show monthBlock countOf maxDocsPerRange
          (completedMonths ++ (((r :: rest).take (i.1 + 1)).map TimeRange.key))
          ((r :: rest).get (Fin.succ i)) = _
      rw [List.take_succ_cons, List.map_cons, ← List.append_cons]
      rfl
    rw [htail, ← ih (completedMonths ++ [r.key])]
    show (generateAdaptiveRanges (countOf r) maxDocsPerRange r).map
          (fun range => Event.dump range.key) ++
        Event.save (completedMonths ++ [r.key]) ::
          (runLoop countOf maxDocsPerRange (completedMonths ++ [r.key]) rest).1 =
      monthBlock countOf maxDocsPerRange completedMonths r ++
        (runLoop countOf maxDocsPerRange (completedMonths ++ [r.key]) rest).1
    rw [monthBlock, List.append_assoc]
    rfl

/-- Counterexample to C1 as stated: a single pending month holding 2,500,000
documents against a 1,000,000-document cap is split into three sub-range
units; the trace exports all three units and only then persists a single
checkpoint (containing only the month key), so after the first unit's export
no checkpoint containing that unit's key is persisted before the next unit
is processed. -/
theorem checkpoint_per_unit_counterexample :
    checkpointAfterEachUnit
      (runLoop (fun _ => 2500000) 1000000 [] [⟨0, 2592000000, "2023-06"⟩]).1 = false := by
  decide

/-! ### Lemmas about a whole run -/

/-- Counterexample to C4 as stated: with a source spanning a single month, a
first run from no checkpoint completes every unit and deletes the checkpoint
file ("Clean completion - state file removed"); the second run therefore
finds no checkpoint, filters nothing out, and performs one unit export again
instead of zero. -/
theorem rerun_after_completion_counterexample :
    (runOnce (fun _ => 0) 1000000 "2023-02-01T00:00:00.000Z"
        [⟨0, 100, "2023-01"⟩] none).stateFileAfter = none ∧
    numDumps (runOnce (fun _ => 0) 1000000 "2023-02-01T00:00:00.000Z"
        [⟨0, 100, "2023-01"⟩]
        ((runOnce (fun _ => 0) 1000000 "2023-02-01T00:00:00.000Z"
          [⟨0, 100, "2023-01"⟩] none).stateFileAfter)).trace ≠ 0 := by
  exact ⟨by decide, by decide⟩

/-- C4 (amended): a run over a nonempty monthly range set that starts from no
checkpoint completes every month and then deletes the checkpoint file, so a
second run with the source unchanged finds no checkpoint and repeats the
first run verbatim — it re-exports every unit rather than filtering them
out.  (Zero additional exports happens only when a checkpoint listing every
month is still present when a run starts, i.e. after an interrupted
campaign, not after a completed one.) -/
theorem rerun_after_completion_repeats (countOf : TimeRange → Nat)
    (maxDocsPerRange : Nat) (now : String) (monthlyRanges : List TimeRange)
    (h : monthlyRanges ≠ []) :
    (runOnce countOf maxDocsPerRange now monthlyRanges none).stateFileAfter = none ∧
    runOnce countOf maxDocsPerRange now monthlyRanges
        ((runOnce countOf maxDocsPerRange now monthlyRanges none).stateFileAfter) =
      runOnce countOf maxDocsPerRange now monthlyRanges none := by
  have h1 : (runOnce countOf maxDocsPerRange now monthlyRanges none).stateFileAfter = none := by
    have hne : monthlyRanges.isEmpty = false := by
      cases monthlyRanges with
      | nil => exact absurd rfl h
      | cons a l => rfl
    simp [runOnce, loadStateFile, hne, runLoop_snd]
  exact ⟨h1, by rw [h1]⟩

/-- Witness for the amended C4: a concrete one-month plan; the second run
(starting from the deleted checkpoint) equals the first. -/
theorem rerun_after_completion_repeats_witness :
    ([⟨0, 100, "2023-01"⟩] : List TimeRange) ≠ [] ∧
    ((runOnce (fun _ => 0) 5 "t" [⟨0, 100, "2023-01"⟩] none).stateFileAfter = none ∧
      runOnce (fun _ => 0) 5 "t" [⟨0, 100, "2023-01"⟩]
          ((runOnce (fun _ => 0) 5 "t" [⟨0, 100, "2023-01"⟩] none).stateFileAfter) =
        runOnce (fun _ => 0) 5 "t" [⟨0, 100, "2023-01"⟩] none) :=
  ⟨by decide, rerun_after_completion_repeats (fun _ => 0) 5 "t" [⟨0, 100, "2023-01"⟩]
    (by decide)⟩

/-! ### Lemmas about the streaming exporter -/

theorem dumpLoop_error_of (failAt writeFailAt : Option Nat) :
    ∀ (docs : List MDoc) (i : Nat) (written : List String) (processed : Nat),
      ((∃ k, failAt = some k ∧ i ≤ k ∧ k ≤ i + docs.length) ∨
        (∃ j, writeFailAt = some j ∧ i ≤ j ∧ j < i + docs.length)) →
      ∃ w, dumpLoop failAt writeFailAt docs i written processed = .error w := by
  intro docs
  induction docs with
  | nil =>
    intro i written processed h
    rcases h with ⟨k, hk, h1, h2⟩ | ⟨j, _, h1, h2⟩
    · have hki : k = i := by simp only [List.length_nil] at h2; omega
      subst hki
      exact ⟨written, by simp [dumpLoop, hk]⟩
    · simp only [List.length_nil] at h2; omega
  | cons d rest ih =>
    intro i written processed h
    by_cases hci : failAt = some i
    · exact ⟨written, by simp [dumpLoop, hci]⟩
    · by_cases hwi : writeFailAt = some i
      · exact ⟨written, by simp [dumpLoop, hci, hwi]⟩
      · have h' : (∃ k, failAt = some k ∧ i + 1 ≤ k ∧ k ≤ (i + 1) + rest.length) ∨
            (∃ j, writeFailAt = some j ∧ i + 1 ≤ j ∧ j < (i + 1) + rest.length) := by
          rcases h with ⟨k, hk, h1, h2⟩ | ⟨j, hj, h1, h2⟩
          · refine Or.inl ⟨k, hk, ?_, ?_⟩
            · have : k ≠ i := fun he => hci (he ▸ hk)
              omega
            · simp only [List.length_cons] at h2; omega
          · refine Or.inr ⟨j, hj, ?_, ?_⟩
            · have : j ≠ i := fun he => hwi (he ▸ hj)
              omega
            · simp only [List.length_cons] at h2; omega
        obtain ⟨w, hw⟩ := ih (i + 1) (written ++ [serializeLine d]) (processed + 1) h'
        refine ⟨w, ?_⟩
        rw [show dumpLoop failAt writeFailAt (d :: rest) i written processed =
          dumpLoop failAt writeFailAt rest (i + 1) (written ++ [serializeLine d])
            (processed + 1) from by simp [dumpLoop, hci, hwi]]
        exact hw

theorem dumpLoop_ok (failAt writeFailAt : Option Nat) :
    ∀ (docs : List MDoc) (i : Nat) (written : List String) (processed : Nat)
      (out : List String) (q : Nat),
      dumpLoop failAt writeFailAt docs i written processed = .ok (out, q) →
      out = written ++ docs.map serializeLine ∧ q = processed + docs.length := by
  intro docs
  induction docs with
  | nil =>
    intro i written processed out q h
    by_cases hci : failAt = some i
    · simp [dumpLoop, hci] at h
    · simp [dumpLoop, hci] at h
      simp [← h.1, ← h.2]
  | cons d rest ih =>
    intro i written processed out q h
    by_cases hci : failAt = some i
    · simp [dumpLoop, hci] at h
    · by_cases hwi : writeFailAt = some i
      · simp [dumpLoop, hci, hwi] at h
      · rw [show dumpLoop failAt writeFailAt (d :: rest) i written processed =
          dumpLoop failAt writeFailAt rest (i + 1) (written ++ [serializeLine d])
            (processed + 1) from by simp [dumpLoop, hci, hwi]] at h
        obtain ⟨h1, h2⟩ := ih (i + 1) (written ++ [serializeLine d]) (processed + 1) out q h
        constructor
        · rw [h1, List.map_cons, List.append_assoc]
          rfl
        · rw [h2, List.length_cons]
          omega

/-- C5: whenever a unit export hits an unrecoverable error — a cursor
failure, a sink write failure, or a failure of the closing flush — `dumpMonth`
deletes the partially written artifact (no partial artifact remains on disk),
closes the cursor, and propagates the error instead of returning success. -/
theorem export_error_cleanup (key : String) (cur : CursorInput) (sink : SinkInput)
    (h : hasFailure cur sink = true) :
    (dumpMonth key cur sink).result = .error () ∧
    (dumpMonth key cur sink).artifact = none ∧
    (dumpMonth key cur sink).cursorClosed = true := by
  have h' : (cursorFails cur = true ∨ sinkWriteFails cur sink = true) ∨
      sink.endFails = true := by
    simpa [hasFailure, Bool.or_eq_true] using h
  have hcases : (∃ w, dumpLoop cur.failAt sink.writeFailAt cur.docs 0 [] 0 = .error w) ∨
      sink.endFails = true := by
    rcases h' with (hc | hw) | he
    · left
      rcases hfa : cur.failAt with _ | k
      · simp [cursorFails, hfa] at hc
      · simp only [cursorFails, hfa, decide_eq_true_eq] at hc
        exact dumpLoop_error_of (some k) sink.writeFailAt cur.docs 0 [] 0
          (Or.inl ⟨k, rfl, by omega, by omega⟩)
    · left
      rcases hwa : sink.writeFailAt with _ | j
      · simp [sinkWriteFails, hwa] at hw
      · simp only [sinkWriteFails, hwa, decide_eq_true_eq] at hw
        exact dumpLoop_error_of cur.failAt (some j) cur.docs 0 [] 0
          (Or.inr ⟨j, rfl, by omega, by omega⟩)
    · exact Or.inr he
  rw [dumpMonth]
  rcases hcases with ⟨w, hw⟩ | hend
  · rw [hw]
    exact ⟨rfl, rfl, rfl⟩
  · rcases hloop : dumpLoop cur.failAt sink.writeFailAt cur.docs 0 [] 0 with w | ⟨out, q⟩
    · exact ⟨rfl, rfl, rfl⟩
    · simp [hend]

/-- Witness for C5: a cursor that throws after yielding its first document;
the partial artifact is removed, the cursor closed and the error returned. -/
theorem export_error_cleanup_witness :
    hasFailure ⟨[⟨some "a", "s"⟩], some 1⟩ ⟨none, false⟩ = true ∧
    ((dumpMonth "2023-01" ⟨[⟨some "a", "s"⟩], some 1⟩ ⟨none, false⟩).result = .error () ∧
      (dumpMonth "2023-01" ⟨[⟨some "a", "s"⟩], some 1⟩ ⟨none, false⟩).artifact = none ∧
      (dumpMonth "2023-01" ⟨[⟨some "a", "s"⟩], some 1⟩ ⟨none, false⟩).cursorClosed = true) :=
  ⟨by decide, export_error_cleanup "2023-01" ⟨[⟨some "a", "s"⟩], some 1⟩ ⟨none, false⟩
    (by decide)⟩

/-- C6: a successful `dumpMonth` writes exactly one serialized single-line
record per document yielded by the unit's cursor, in the cursor's order, and
returns a `documents` count equal to the number of documents iterated — no
document is lost or duplicated within the unit. -/
theorem export_success_artifact (key : String) (cur : CursorInput) (sink : SinkInput)
    (u : UnitResult) (h : (dumpMonth key cur sink).result = .ok u) :
    u.key = key ∧ u.documents = cur.docs.length ∧
    (dumpMonth key cur sink).artifact = some (cur.docs.map serializeLine) ∧
    (dumpMonth key cur sink).cursorClosed = true := by
  rw [dumpMonth] at h ⊢
  cases hloop : dumpLoop cur.failAt sink.writeFailAt cur.docs 0 [] 0 with
  | error w =>
    rw [hloop] at h
    simp at h
  | ok p =>
    obtain ⟨out, q⟩ := p
    rw [hloop] at h
    by_cases hend : sink.endFails = true
    · simp [hend] at h
    · obtain ⟨h1, h2⟩ := dumpLoop_ok cur.failAt sink.writeFailAt cur.docs 0 [] 0 out q hloop
      simp only [hend, Bool.false_eq_true, if_false] at h ⊢
      simp only [Except.ok.injEq] at h
      refine ⟨?_, ?_, ?_, trivial⟩
      · rw [← h]
      · rw [← h, h2]
        simp
      · rw [h1]
        simp

/-- Witness for C6: a two-document cursor whose second document needs the
safe-serialization fallback (scenario 5 of the spec); the artifact holds
exactly the two records in order and the count is 2. -/
theorem export_success_artifact_witness :
    (dumpMonth "2023-01" ⟨[⟨some "a", "sa"⟩, ⟨none, "fallback"⟩], none⟩
        ⟨none, false⟩).result = .ok ⟨"2023-01", 2⟩ ∧
    (dumpMonth "2023-01" ⟨[⟨some "a", "sa"⟩, ⟨none, "fallback"⟩], none⟩
        ⟨none, false⟩).artifact = some ["a\n", "fallback\n"] :=
  ⟨by decide,
    (export_success_artifact "2023-01" ⟨[⟨some "a", "sa"⟩, ⟨none, "fallback"⟩], none⟩
      ⟨none, false⟩ ⟨"2023-01", 2⟩ (by decide)).2.2.1⟩

/-! ### Lemmas about the checkpoint store -/

/-- C7: `loadState` never throws, and on every failing input — absent file,
unreadable file, or unparseable contents — it returns the fresh empty state
`{ completedMonths: [], lastProcessed: null }`.  (Totality of the Lean
function is the never-throws part.) -/
theorem load_state_fail_open (parseState : String → Option DumpState)
    (file : FileReadResult)
    (h : file = .absent ∨ file = .unreadable ∨
      ∃ contents, file = .content contents ∧ parseState contents = none) :
    loadState parseState file = ⟨[], none⟩ := by
  rcases h with h | h | ⟨c, hc, hp⟩
  · rw [h, loadState]
  · rw [h, loadState]
  · rw [hc, loadState, hp]

/-- Witness for C7 at scenario 3 of the spec: an absent checkpoint file
yields the fresh empty state. -/
theorem load_state_fail_open_witness :
    ((FileReadResult.absent = .absent ∨ FileReadResult.absent = .unreadable ∨
        ∃ contents, FileReadResult.absent = .content contents ∧
          (fun (_ : String) => (none : Option DumpState)) contents = none) ∧
      loadState (fun _ => none) .absent = ⟨[], none⟩) :=
  ⟨Or.inl rfl, load_state_fail_open (fun _ => none) .absent (Or.inl rfl)⟩

theorem stringifyState_data (state : DumpState) :
    ∃ cs, (stringifyState state).data = '\x7b' :: '\n' :: cs := by
  rw [stringifyState]
  refine ⟨"  \"completedMonths\": ".data ++
    (((if state.completedMonths.isEmpty then "[]"
        else "[\n    " ++ String.intercalate ",\n    "
          (state.completedMonths.map jsonString) ++ "\n  ]") ++
      ",\n  \"lastProcessed\": " ++
      (match state.lastProcessed with
        | none => "null"
        | some s => jsonString s) ++ "\n\x7d").data), ?_⟩
  rw [String.data_append, String.data_append, String.data_append, String.data_append]
  rw [show ("\x7b\n  \"completedMonths\": ").data =
    '\x7b' :: '\n' :: "  \"completedMonths\": ".data from rfl]
  simp [String.data_append]

/-- Counterexample to C8 as stated: `saveState` is a plain in-place
`fs.writeFile`, not an atomic replace.  Starting from a checkpoint holding
the serialized empty state, saving a one-month state interrupted after one
character leaves the file holding just `"{"` — neither the complete old
state nor the complete new one. -/
theorem save_state_atomic_counterexample :
    ¬ (saveState ⟨["2023-01"], none⟩ (some (stringifyState ⟨[], none⟩)) (some 1) =
          some (stringifyState ⟨[], none⟩) ∨
        saveState ⟨["2023-01"], none⟩ (some (stringifyState ⟨[], none⟩)) (some 1) =
          some (stringifyState ⟨["2023-01"], none⟩)) := by
  decide

/-- C8 (amended): `saveState` overwrites the checkpoint file with the full
`JSON.stringify(state, null, 2)` serialization when it completes, but the
write is not an atomic file replacement: a save interrupted after `1`
character leaves the file holding just the opening brace, which is a proper
prefix of the new contents and a complete serialization of no state. -/
theorem save_state_overwrite_not_atomic (state : DumpState) (oldContents : Option String) :
    saveState state oldContents none = some (stringifyState state) ∧
    saveState state oldContents (some 1) = some "\x7b" ∧
    stringifyState state ≠ "\x7b" := by
  obtain ⟨cs, hcs⟩ := stringifyState_data state
  refine ⟨rfl, ?_, ?_⟩
  · show some (String.mk ((stringifyState state).data.take 1)) = some "\x7b"
    rw [hcs]
    rfl
  · intro he
    have hd := congrArg String.data he
    rw [hcs] at hd
    simp at hd

/-! ### Lemmas about the artifact cleaner -/

/-- C9: the clean operation never deletes an artifact whose unit key is
absent from the checkpoint's completed set — whatever the requested month
filter, dry-run flag, confirmation behaviour, on-disk contents and unlink
outcomes are, every deleted file's month key was in `completedMonths`. -/
theorem clean_only_completed (cfg : DumperConfig) (dir : List FileEntry)
    (stateFile : Option DumpState) (months : Option (List String))
    (confirmDelete dryRun confirmAnswer : Bool) (unlinkFails : String → Bool)
    (f : BackupFileInfo)
    (hf : f ∈ (cleanBackedUpData cfg dir stateFile months confirmDelete dryRun
      confirmAnswer unlinkFails).deleted) :
    f.monthKey ∈ (loadStateFile stateFile).completedMonths := by
  simp only [cleanBackedUpData] at hf
  split at hf
  · simp at hf
  · split at hf
    · simp at hf
    · split at hf
      · simp at hf
      · split at hf
        · simp at hf
        · split at hf
          · simp at hf
          · obtain ⟨hmem, _⟩ := List.mem_filter.mp hf
            obtain ⟨hmem2, _⟩ := List.mem_filter.mp hmem
            obtain ⟨_, hcont⟩ := List.mem_filter.mp hmem2
            simpa using hcont

/-- Witness for C9: a clean run that actually deletes the checkpointed
artifact `db_coll_2023-01.jsonl`; its key is in the completed set. -/
theorem clean_only_completed_witness :
    (⟨"2023-01", "db_coll_2023-01.jsonl", 3⟩ : BackupFileInfo) ∈
      (cleanBackedUpData ⟨"db", "coll", "json", false⟩ [⟨"db_coll_2023-01.jsonl", 3⟩]
        (some ⟨["2023-01"], none⟩) none false false false (fun _ => false)).deleted ∧
    "2023-01" ∈ (loadStateFile (some ⟨["2023-01"], none⟩)).completedMonths :=
  ⟨by decide,
    clean_only_completed ⟨"db", "coll", "json", false⟩ [⟨"db_coll_2023-01.jsonl", 3⟩]
      (some ⟨["2023-01"], none⟩) none false false false (fun _ => false)
      ⟨"2023-01", "db_coll_2023-01.jsonl", 3⟩ (by decide)⟩

theorem stripLeading_append (p s : List Char) : stripLeading p (p ++ s) = some s := by
  induction p with
  | nil => rfl
  | cons c cs ih => simp [stripLeading, ih]

theorem mem_insertByMonthKey (a b : BackupFileInfo) (l : List BackupFileInfo) :
    a ∈ insertByMonthKey b l ↔ a = b ∨ a ∈ l := by
  induction l with
  | nil => simp [insertByMonthKey]
  | cons c cs ih =>
    rw [insertByMonthKey]
    split
    · simp [List.mem_cons]
    · simp only [List.mem_cons, ih]
      tauto

theorem mem_sortByMonthKey (a : BackupFileInfo) (l : List BackupFileInfo) :
    a ∈ sortByMonthKey l ↔ a ∈ l := by
  induction l with
  | nil => simp [sortByMonthKey]
  | cons b bs ih =>
    rw [sortByMonthKey, mem_insertByMonthKey]
    simp [ih]

theorem matchBackupName_month (database collection key ext : String)
    (hkey : SpecMonthKey key) (hext : ext ∈ specExtensions) :
    matchBackupName database collection
      (database ++ "_" ++ collection ++ "_" ++ key ++ ext) = some key := by
  obtain ⟨c1, c2, c3, c4, c5, c6, h1, h2, h3, h4, h5, h6, hk⟩ := hkey
  subst hk
  have hsplit : (database ++ "_" ++ collection ++ "_" ++
      String.mk [c1, c2, c3, c4, '-', c5, c6] ++ ext).data =
      (database ++ "_" ++ collection ++ "_").data ++
        (c1 :: c2 :: c3 :: c4 :: '-' :: c5 :: c6 :: ext.data) := by
    simp [String.data_append]
  rw [matchBackupName, hsplit, stripLeading_append]
  have hextOk : extOk ext.data = true := by
    simp only [specExtensions, List.mem_cons, List.not_mem_nil, or_false] at hext
    rcases hext with rfl | rfl | rfl | rfl <;> decide
  show (if (c1.isDigit && c2.isDigit && c3.isDigit && c4.isDigit &&
      c5.isDigit && c6.isDigit && extOk ext.data) = true then
    some (String.mk [c1, c2, c3, c4, '-', c5, c6]) else none) = some _
  rw [if_pos (by rw [h1, h2, h3, h4, h5, h6, hextOk]; rfl)]

/-- Counterexample to C10 as stated: the artifact
`db_coll_2023-06-part1.jsonl.gz` follows the spec's naming convention (its
unit key `2023-06-part1` matches `YYYY-MM-partN`), yet the discovery regex of
`findBackupFiles` only accepts keys of the shape `\d{4}-\d{2}`, so discovery
returns no candidate at all for a directory holding exactly that file. -/
theorem cleaner_discovery_counterexample :
    SpecArtifactName "db" "coll" "db_coll_2023-06-part1.jsonl.gz" ∧
    findBackupFiles "db" "coll" [⟨"db_coll_2023-06-part1.jsonl.gz", 10⟩] = [] := by
  constructor
  · refine ⟨"2023-06-part1", ".jsonl.gz", Or.inr ?_, by simp [specExtensions], by decide⟩
    refine ⟨"2023-06", ['1'], ?_, by decide, by decide, by decide⟩
    exact ⟨'2', '0', '2', '3', '0', '6', rfl, rfl, rfl, rfl, rfl, rfl, by decide⟩
  · decide

/-- C10 (amended): discovery returns a candidate for every artifact whose
name follows the convention with a plain monthly unit key `YYYY-MM`; adaptive
sub-range artifacts (`YYYY-MM-partN` keys) are never discovered by
`findBackupFiles` and hence never become cleaning candidates. -/
theorem cleaner_discovers_month_artifacts (database collection : String)
    (dir : List FileEntry) (f : FileEntry) (key ext : String)
    (hf : f ∈ dir) (hkey : SpecMonthKey key) (hext : ext ∈ specExtensions)
    (hname : f.name = database ++ "_" ++ collection ++ "_" ++ key ++ ext) :
    (⟨key, f.name, f.size⟩ : BackupFileInfo) ∈ findBackupFiles database collection dir := by
  rw [findBackupFiles]
  apply (mem_sortByMonthKey _ _).mpr
  apply List.mem_filterMap.mpr
  refine ⟨f, hf, ?_⟩
  rw [hname, matchBackupName_month database collection key ext hkey hext]

/-- Witness for the amended C10: the monthly artifact `db_coll_2023-01.jsonl`
is discovered with key `2023-01`. -/
theorem cleaner_discovers_month_artifacts_witness :
    (⟨"2023-01", "db_coll_2023-01.jsonl", 3⟩ : BackupFileInfo) ∈
      findBackupFiles "db" "coll" [⟨"db_coll_2023-01.jsonl", 3⟩] :=
  cleaner_discovers_month_artifacts "db" "coll" [⟨"db_coll_2023-01.jsonl", 3⟩]
    ⟨"db_coll_2023-01.jsonl", 3⟩ "2023-01" ".jsonl" (by decide)
    ⟨'2', '0', '2', '3', '0', '1', rfl, rfl, rfl, rfl, rfl, rfl, by decide⟩
    (by simp [specExtensions]) (by decide)

end MongoBackup
